import Mathlib

/-!
A shallow embedding in Lean of the NetJam simulator core (`src/App.tsx` of the
JetJam-sim repository), together with theorems checking the natural-language
specification against it.

Modelling conventions:
* JavaScript numbers are modelled as exact rationals (`ℚ`); `Math.sqrt` is
  modelled by Mathlib's `Rat.sqrt`, which is exact on perfect squares.
* `Math.random()` draws and `Date.now()` timestamps are inputs: each tick
  receives an environment `Env` holding the tick's timestamp, the stream of
  random draws (consumed in the source's call order, tracked by an index `k`),
  and a function standing in for `Math.sin`.
* React `useState`/`useRef` cells live in an explicit `SimState`; one call of
  `updateSimulation` (App.tsx lines 76-322) is the function `tick`.
-/

namespace NetJam

/-- Constants, App.tsx lines 9-14. -/
def NODE_COUNT : ℕ := 40

def WIDTH : ℚ := 800

def HEIGHT : ℚ := 500

def MAX_RANGE : ℚ := 120

def PACKET_SPEED : ℚ := 3

def LOG_INTERVAL : ℚ := 500

/-- `AttackType` enum, src/types.ts. -/
inductive AttackType where
  | none
  | constant
  | reactive
  | random
  | sweep
  | intelligent
deriving DecidableEq

/-- `Node` interface, src/types.ts. -/
structure Node where
  id : ℕ
  x : ℚ
  y : ℚ
  vx : ℚ
  vy : ℚ
  isJammer : Bool
  isTarget : Bool
  battery : ℚ
  packetQueue : ℚ
deriving DecidableEq

/-- `Link` interface, src/types.ts. -/
structure Link where
  source : ℕ
  target : ℕ
  quality : ℚ
deriving DecidableEq

/-- `Packet` interface, src/types.ts.  The source fills `id` with
`Math.random().toString(36)`; the value is never inspected, so the raw random
draw is kept. -/
structure Packet where
  id : ℚ
  sourceId : ℕ
  targetId : ℕ
  x : ℚ
  y : ℚ
  progress : ℚ
  delivered : Bool
  lost : Bool
  createdAt : ℚ
deriving DecidableEq

/-- `SimulationLog` interface, src/types.ts: one emitted Metrics Record. -/
structure SimulationLog where
  timestamp : ℚ
  attackType : AttackType
  pdr : ℚ
  plr : ℚ
  throughput : ℚ
  latency : ℚ
  energy : ℚ
  avgLinkQuality : ℚ
  jammingIntensity : ℚ
deriving DecidableEq

/-- `randomAttackStateRef`, App.tsx line 49. -/
structure RandomAttackState where
  isActive : Bool
  nextSwitch : ℚ
deriving DecidableEq

/-- The mutable cells of the simulation loop (the `useState`/`useRef` cells of
App.tsx lines 23-49): nodes, links, packets, the per-window stats counters,
the random-attack state, the log timer, the frame counter and the selected
attack kind, plus the full metrics dataset (`fullDatasetRef`).  `frame`
models `frameRef`, which holds the `requestAnimationFrame` id of the
scheduled tick; browsers increment that id by one per request, so it acts
as the tick counter the `% 60` recompute throttle reads. -/
structure SimState where
  nodes : List Node
  links : List Link
  packets : List Packet
  packetsSent : ℕ
  packetsDelivered : ℕ
  packetsLost : ℕ
  accumulatedEnergy : ℚ
  latencyAcc : List ℚ
  randomAttack : RandomAttackState
  lastLogTime : ℚ
  frame : ℕ
  attackType : AttackType
  logs : List SimulationLog
deriving DecidableEq

/-- Per-tick external inputs: the tick's `Date.now()` value, the stream of
`Math.random()` draws of this tick in call order, and `Math.sin`. -/
structure Env where
  now : ℚ
  rnd : ℕ → ℚ
  sinq : ℚ → ℚ

/-- Position of a node. -/
def Node.pos (n : Node) : ℚ × ℚ := (n.x, n.y)

/-- Position of a packet. -/
def Packet.pos (p : Packet) : ℚ × ℚ := (p.x, p.y)

/-- `dist`, App.tsx lines 17-19: Euclidean distance.  `Math.sqrt` is modelled
by `Rat.sqrt` (exact whenever the argument is a perfect square). -/
def dist (p q : ℚ × ℚ) : ℚ :=
  Rat.sqrt ((q.1 - p.1) ^ 2 + (q.2 - p.2) ^ 2)

/-- Node movement, App.tsx lines 85-93: position is incremented by velocity,
then a velocity component is negated when the new coordinate left the arena
(`x <= 0 || x >= WIDTH`, same for `y`). -/
def moveNode (n : Node) : Node :=
  let x := n.x + n.vx
  let y := n.y + n.vy
  let vx := if x ≤ 0 ∨ WIDTH ≤ x then -n.vx else n.vx
  let vy := if y ≤ 0 ∨ HEIGHT ≤ y then -n.vy else n.vy
  { n with x := x, y := y, vx := vx, vy := vy }

/-- Step 1 of `updateSimulation` (App.tsx lines 84-93). -/
def moveNodes (ns : List Node) : List Node := ns.map moveNode

/-- Neighbor count of a node, App.tsx lines 139-141: the other nodes with a
different id within communication range. -/
def neighborCount (ns : List Node) (n : Node) : ℕ :=
  (ns.filter fun other =>
    decide (n.id ≠ other.id ∧ dist n.pos other.pos < MAX_RANGE)).length

/-- The target-selection scan of the Intelligent attack, App.tsx lines
135-147: a `forEach` over the node list carrying the mutable pair
`(maxNeighbors, targetNode)`, skipping the jammer and updating on a strictly
larger neighbor count. -/
def selTarget (f : Node → ℤ) : List Node → ℤ → Option Node → Option Node
  | [], _, cur => cur
  | n :: rest, maxNeighbors, cur =>
    if n.isJammer then selTarget f rest maxNeighbors cur
    else if maxNeighbors < f n then selTarget f rest (f n) (some n)
    else selTarget f rest maxNeighbors cur

/-- `selectTarget`: the scan started with `maxNeighbors = -1`,
`targetNode = null` (App.tsx lines 135-136). -/
def selectTarget (ns : List Node) : Option Node :=
  selTarget (fun n => (neighborCount ns n : ℤ)) ns (-1) none

/-- App.tsx lines 148-150: set `isTarget` on exactly the nodes whose id equals
the selected target's id (`(targetNode && n.id === targetNode.id) || false`). -/
def setTargets (ns : List Node) (t : Option Node) : List Node :=
  ns.map fun n =>
    { n with isTarget := match t with
        | some tn => n.id == tn.id
        | Option.none => false }

/-- Result of step 2 of `updateSimulation` (App.tsx lines 95-156). -/
structure AttackEval where
  jammingActive : Bool
  jammingPower : ℚ
  nodes : List Node
  randomAttack : RandomAttackState
  k : ℕ
deriving DecidableEq

/-- Step 2 of `updateSimulation`, App.tsx lines 95-156.  `jammer` is the node
found at line 82 (before movement, so its coordinates are the pre-move ones);
`ns` is the moved node list; `packets` the packet list before
generation/advancement; `k` indexes the next unread random draw. -/
def evalAttack (att : AttackType) (jammer : Option Node) (ns : List Node)
    (packets : List Packet) (ra : RandomAttackState) (frame : ℕ)
    (e : Env) (k : ℕ) : AttackEval :=
  match jammer, att with
  | Option.none, _ =>
    -- line 154-156: no jammer (or attack None): clear all targets
    { jammingActive := false
      jammingPower := 0
      nodes := ns.map fun n => { n with isTarget := false }
      randomAttack := ra
      k := k }
  | some _, AttackType.none =>
    { jammingActive := false
      jammingPower := 0
      nodes := ns.map fun n => { n with isTarget := false }
      randomAttack := ra
      k := k }
  | some _, AttackType.constant =>
    -- lines 101-104
    { jammingActive := true
      jammingPower := 1
      nodes := ns
      randomAttack := ra
      k := k }
  | some _, AttackType.random =>
    -- lines 105-114
    if e.now > ra.nextSwitch then
      let isActive := decide (e.rnd k > 0.5)
      let duration := e.rnd (k + 1) * 1500 + 500
      let ra2 : RandomAttackState :=
        { isActive := isActive, nextSwitch := e.now + duration }
      { jammingActive := ra2.isActive
        jammingPower := if ra2.isActive then 1 else 0
        nodes := ns
        randomAttack := ra2
        k := k + 2 }
    else
      { jammingActive := ra.isActive
        jammingPower := if ra.isActive then 1 else 0
        nodes := ns
        randomAttack := ra
        k := k }
  | some j, AttackType.reactive =>
    -- lines 115-122
    let packetNearby := packets.any fun p =>
      !p.delivered && !p.lost && decide (dist p.pos j.pos < 100)
    { jammingActive := packetNearby
      jammingPower := if packetNearby then 1 else 0
      nodes := ns
      randomAttack := ra
      k := k }
  | some _, AttackType.sweep =>
    -- lines 123-127
    { jammingActive := true
      jammingPower := (e.sinq (e.now / 500) + 1) / 2
      nodes := ns
      randomAttack := ra
      k := k }
  | some _, AttackType.intelligent =>
    -- lines 128-152; `frameRef.current % 60 === 0` gates the recompute
    { jammingActive := true
      jammingPower := 0.9
      nodes := if frame % 60 = 0 then setTargets ns (selectTarget ns) else ns
      randomAttack := ra
      k := k }

/-- The ordered unordered-pair enumeration of the double loop at App.tsx
lines 163-164 (`i` outer, `j = i+1 ..` inner). -/
def pairs : List α → List (α × α)
  | [] => []
  | a :: rest => (rest.map fun b => (a, b)) ++ pairs rest

/-- One iteration of the link loop, App.tsx lines 165-188: a link exists when
the distance is below `MAX_RANGE`; base quality `1 - d/MAX_RANGE`; when
jamming is active and a jammer exists, subtract
`jammerImpact * jammingPower * powerMultiplier`; clamp to `[0,1]`. -/
def linkFor (att : AttackType) (jammingActive : Bool) (jammingPower : ℚ)
    (jammer : Option Node) (pq : Node × Node) : Option Link :=
  let n1 := pq.1
  let n2 := pq.2
  let d := dist n1.pos n2.pos
  if d < MAX_RANGE then
    let quality := 1 - d / MAX_RANGE
    let quality :=
      match jammer with
      | some j =>
        if jammingActive then
          let distToJammer := min (dist n1.pos j.pos) (dist n2.pos j.pos)
          let powerMultiplier : ℚ :=
            if (n1.isTarget || n2.isTarget) && att == AttackType.intelligent
            then 3 else 2
          let jammerImpact :=
            max 0 (1 - distToJammer /
              (if att == AttackType.sweep then 150 else 120))
          quality - jammerImpact * jammingPower * powerMultiplier
        else quality
      | Option.none => quality
    some { source := n1.id, target := n2.id, quality := max 0 (min 1 quality) }
  else Option.none

/-- Step 3 of `updateSimulation`, App.tsx lines 158-190. -/
def computeLinks (att : AttackType) (jammingActive : Bool) (jammingPower : ℚ)
    (jammer : Option Node) (ns : List Node) : List Link :=
  (pairs ns).filterMap (linkFor att jammingActive jammingPower jammer)

/-- App.tsx line 192: mean link quality, `0` when no links exist (the loop
accumulates `totalQuality` and `linkCount` over exactly the produced links). -/
def avgLinkQuality (ls : List Link) : ℚ :=
  if 0 < ls.length then (ls.map Link.quality).sum / (ls.length : ℚ) else 0

/-- Result of the traffic-generation step. -/
structure GenResult where
  packets : List Packet
  sentInc : ℕ
  k : ℕ
deriving DecidableEq

/-- Step 4 of `updateSimulation`, App.tsx lines 194-221: with probability
0.15 pick a uniformly random node; if it is not the jammer, collect its linked
neighbors of quality above 0.1 and send a packet to a uniformly random one. -/
def generate (ns : List Node) (links : List Link) (now : ℚ) (e : Env) (k : ℕ)
    (ps : List Packet) : GenResult :=
  if e.rnd k < 0.15 then
    let idx := (⌊e.rnd (k + 1) * (ns.length : ℚ)⌋).toNat
    let k := k + 2
    match ns[idx]? with
    | Option.none => { packets := ps, sentInc := 0, k := k }
    | some source =>
      if source.isJammer then { packets := ps, sentInc := 0, k := k }
      else
        let neighbors :=
          (links.filter fun l =>
            (l.source == source.id || l.target == source.id) &&
              decide (l.quality > 0.1)).map
            fun l => if l.source == source.id then l.target else l.source
        if 0 < neighbors.length then
          let tIdx := (⌊e.rnd k * (neighbors.length : ℚ)⌋).toNat
          let k := k + 1
          match neighbors[tIdx]? with
          | Option.none => { packets := ps, sentInc := 0, k := k }
          | some targetId =>
            match ns.find? fun n => n.id == targetId with
            | Option.none => { packets := ps, sentInc := 0, k := k }
            | some _ =>
              let newPkt : Packet :=
                { id := e.rnd k
                  sourceId := source.id
                  targetId := targetId
                  x := source.x
                  y := source.y
                  progress := 0
                  delivered := false
                  lost := false
                  createdAt := now }
              { packets := ps ++ [newPkt], sentInc := 1, k := k + 1 }
        else { packets := ps, sentInc := 0, k := k }
  else { packets := ps, sentInc := 0, k := k + 1 }

/-- Result of advancing one packet. -/
structure AdvResult where
  packet : Packet
  deliveredInc : ℕ
  lostInc : ℕ
  latency : List ℚ
  k : ℕ
deriving DecidableEq

/-- Step 5 of `updateSimulation` for one packet, App.tsx lines 224-264.
The zero-distance case: in JavaScript `PACKET_SPEED / 0` is `Infinity`, so
`newProgress >= 1` holds and the delivered branch is taken with the explicit
finite values `target.x`, `target.y`, `1`; `ℚ` has no infinity, so that case
is listed alongside `newProgress ≥ 1`. -/
def advancePacket (ns : List Node) (links : List Link) (now : ℚ) (e : Env)
    (p : Packet) (k : ℕ) : AdvResult :=
  if p.delivered || p.lost then
    { packet := p, deliveredInc := 0, lostInc := 0, latency := [], k := k }
  else
    match ns.find? fun n => n.id == p.sourceId,
          ns.find? fun n => n.id == p.targetId with
    | Option.none, _ =>
      { packet := { p with lost := true }
        deliveredInc := 0
        lostInc := 1
        latency := []
        k := k }
    | some _, Option.none =>
      { packet := { p with lost := true }
        deliveredInc := 0
        lostInc := 1
        latency := []
        k := k }
    | some source, some target =>
      let link := links.find? fun l =>
        (l.source == p.sourceId && l.target == p.targetId) ||
          (l.target == p.sourceId && l.source == p.targetId)
      let move : ℕ → AdvResult := fun k2 =>
        let totalDist := dist source.pos target.pos
        let newProgress := p.progress + PACKET_SPEED / totalDist
        if totalDist = 0 ∨ 1 ≤ newProgress then
          let q : Packet :=
            { p with
              x := target.x
              y := target.y
              progress := 1
              delivered := true }
          { packet := q
            deliveredInc := 1
            lostInc := 0
            latency := [now - p.createdAt]
            k := k2 }
        else
          let q : Packet :=
            { p with
              x := source.x + (target.x - source.x) * newProgress
              y := source.y + (target.y - source.y) * newProgress
              progress := newProgress }
          { packet := q
            deliveredInc := 0
            lostInc := 0
            latency := []
            k := k2 }
      let badLink : Bool :=
        match link with
        | Option.none => true
        | some l => decide (l.quality ≤ 0.2)
      if badLink then
        if e.rnd k < 0.15 then
          { packet := { p with lost := true }
            deliveredInc := 0
            lostInc := 1
            latency := []
            k := k + 1 }
        else move (k + 1)
      else move k

/-- Step 5 over the packet list in order, threading the random index and
collecting the counter increments and latency samples. -/
def advancePackets (ns : List Node) (links : List Link) (now : ℚ) (e : Env) :
    List Packet → ℕ → List Packet × ℕ × ℕ × List ℚ × ℕ
  | [], k => ([], 0, 0, [], k)
  | p :: rest, k =>
    let r := advancePacket ns links now e p k
    let rec2 := advancePackets ns links now e rest r.k
    (r.packet :: rec2.1, r.deliveredInc + rec2.2.1, r.lostInc + rec2.2.2.1,
      r.latency ++ rec2.2.2.2.1, rec2.2.2.2.2)

/-- Models `parseFloat(x.toFixed(3))`: round to 3 decimal places. -/
def round3 (q : ℚ) : ℚ := (⌊q * 1000 + 1 / 2⌋ : ℚ) / 1000

/-- Models `parseFloat(x.toFixed(2))`: round to 2 decimal places. -/
def round2 (q : ℚ) : ℚ := (⌊q * 100 + 1 / 2⌋ : ℚ) / 100

/-- Step 6 of `updateSimulation`, App.tsx lines 269-291: build one
`SimulationLog` record from the window counters.  Note line 288: the energy
field is `accumulatedEnergyRef.current + (jammingActive ? 15 : 2)`, and
`accumulatedEnergyRef` is never written anywhere in the source. -/
def emitRecord (now : ℚ) (att : AttackType) (sent delivered lost : ℕ)
    (latAcc : List ℚ) (accEnergy : ℚ) (jammingActive : Bool)
    (avgQ : ℚ) (power : ℚ) : SimulationLog :=
  let pdr : ℚ := if sent = 0 then 1 else (delivered : ℚ) / ((sent : ℚ) + 0.0001)
  let plr : ℚ := if sent = 0 then 0 else (lost : ℚ) / ((sent : ℚ) + 0.0001)
  let throughput : ℚ := (delivered : ℚ) * (1000 / LOG_INTERVAL)
  let avgLatency : ℚ :=
    if 0 < latAcc.length then latAcc.sum / (latAcc.length : ℚ) else 0
  { timestamp := now
    attackType := att
    pdr := round3 pdr
    plr := round3 plr
    throughput := round2 throughput
    latency := round2 avgLatency
    energy := round2 (accEnergy + (if jammingActive then 15 else 2))
    avgLinkQuality := round3 avgQ
    jammingIntensity := round2 power }

/-! One call of `updateSimulation` (App.tsx lines 76-322) is `tick` below.
The source binds each phase's result to a local constant; here each phase is
a named function of `(e, s)` (the code is pure, so re-evaluation and sharing
agree), which keeps the phases individually addressable. -/

/-- App.tsx line 82: the jammer, looked up before movement, so all jammer
distances of the tick use its pre-move coordinates. -/
def tickJammer (s : SimState) : Option Node :=
  s.nodes.find? fun n => n.isJammer

/-- Steps 1-2: movement, then attack evaluation. -/
def tickAttack (e : Env) (s : SimState) : AttackEval :=
  evalAttack s.attackType (tickJammer s) (moveNodes s.nodes) s.packets
    s.randomAttack s.frame e 0

/-- Step 3: the tick's links. -/
def tickLinks (e : Env) (s : SimState) : List Link :=
  computeLinks s.attackType (tickAttack e s).jammingActive
    (tickAttack e s).jammingPower (tickJammer s) (tickAttack e s).nodes

/-- Step 4: traffic generation. -/
def tickGen (e : Env) (s : SimState) : GenResult :=
  generate (tickAttack e s).nodes (tickLinks e s) e.now e (tickAttack e s).k
    s.packets

/-- Step 5: packet advancement. -/
def tickAdv (e : Env) (s : SimState) : List Packet × ℕ × ℕ × List ℚ × ℕ :=
  advancePackets (tickAttack e s).nodes (tickLinks e s) e.now e
    (tickGen e s).packets (tickGen e s).k

/-- One call of `updateSimulation`, App.tsx lines 76-322.  The log window
check at line 268 resets the sent/delivered/lost counters and the latency
list but not `accumulatedEnergy` (lines 305-309). -/
def tick (e : Env) (s : SimState) : SimState :=
  let a := tickAttack e s
  let links := tickLinks e s
  let g := tickGen e s
  let adv := tickAdv e s
  let sent := s.packetsSent + g.sentInc
  let delivered := s.packetsDelivered + adv.2.1
  let lost := s.packetsLost + adv.2.2.1
  let latAcc := s.latencyAcc ++ adv.2.2.2.1
  let live := adv.1.filter fun p => !p.delivered && !p.lost
  if e.now - s.lastLogTime > LOG_INTERVAL then
    let rec1 : SimulationLog :=
      emitRecord e.now s.attackType sent delivered lost latAcc
        s.accumulatedEnergy a.jammingActive (avgLinkQuality links)
        a.jammingPower
    { s with
      nodes := a.nodes
      links := links
      packets := live
      packetsSent := 0
      packetsDelivered := 0
      packetsLost := 0
      latencyAcc := []
      randomAttack := a.randomAttack
      lastLogTime := e.now
      frame := s.frame + 1
      logs := s.logs ++ [rec1] }
  else
    { s with
      nodes := a.nodes
      links := links
      packets := live
      packetsSent := sent
      packetsDelivered := delivered
      packetsLost := lost
      latencyAcc := latAcc
      randomAttack := a.randomAttack
      frame := s.frame + 1 }

/-- The attack-selection handler, App.tsx line 445
(`onClick={() => setAttackType(type)}`): it stores the new kind and touches
nothing else. -/
def setAttackType (t : AttackType) (s : SimState) : SimState :=
  { s with attackType := t }

/-- A run: iterate `tick` over a list of per-tick environments. -/
def run : List Env → SimState → SimState
  | [], s => s
  | e :: es, s => run es (tick e s)

/-! Spec-side counterparts for the link-quality claim, written from the
spec's words rather than from the loop in the code, to be compared with
`computeLinks`. -/

/-- The spec's description of one link's quality: base `1 - d/R`; when
jamming is active and a jammer exists, subtract
`max 0 (1 - dj/footprint) * jammingPower * multiplier` where `dj` is the
distance from the closer endpoint to the jammer, the footprint is 150 for
Sweep and 120 otherwise, and the multiplier is 3 when an endpoint is the
Intelligent target under the Intelligent kind, else 2; clamp to `[0,1]`. -/
def linkQualityClaim (att : AttackType) (jammingActive : Bool)
    (jammingPower : ℚ) (jammer : Option Node) (n1 n2 : Node) : ℚ :=
  let d := dist n1.pos n2.pos
  let interference : ℚ :=
    match jammer with
    | some j =>
      if jammingActive then
        let dj := min (dist n1.pos j.pos) (dist n2.pos j.pos)
        let footprint : ℚ := if att == AttackType.sweep then 150 else 120
        let multiplier : ℚ :=
          if (n1.isTarget || n2.isTarget) && att == AttackType.intelligent
          then 3 else 2
        max 0 (1 - dj / footprint) * jammingPower * multiplier
      else 0
    | Option.none => 0
  max 0 (min 1 (1 - d / MAX_RANGE - interference))

/-- The spec's description of the link set: exactly the unordered pairs at
distance below `MAX_RANGE`, each carrying `linkQualityClaim`. -/
def linksClaim (att : AttackType) (jammingActive : Bool) (jammingPower : ℚ)
    (jammer : Option Node) (ns : List Node) : List Link :=
  ((pairs ns).filter fun pq =>
    decide (dist pq.1.pos pq.2.pos < MAX_RANGE)).map fun pq =>
    { source := pq.1.id, target := pq.2.id,
      quality := linkQualityClaim att jammingActive jammingPower jammer
        pq.1 pq.2 }

/-- The spec's description of the per-tick average link quality: the
arithmetic mean over all links, 0 when no links exist. -/
def avgLinkQualityClaim (ls : List Link) : ℚ :=
  if ls = [] then 0 else (ls.map Link.quality).sum / (ls.length : ℚ)

/-! Definitions for the arena-bounds analysis (claim C4). -/

/-- A node is inside the arena. -/
def inArena (n : Node) : Prop :=
  0 ≤ n.x ∧ n.x ≤ WIDTH ∧ 0 ≤ n.y ∧ n.y ≤ HEIGHT

/-- Both velocity components are at most 1/4 in absolute value, the bound
`(Math.random() - 0.5) * 0.5` of `initializeNodes` guarantees
(App.tsx lines 59-60). -/
def speedBounded (n : Node) : Prop :=
  -(1/4) ≤ n.vx ∧ n.vx ≤ 1/4 ∧ -(1/4) ≤ n.vy ∧ n.vy ≤ 1/4

/-- Inductive invariant of the move-then-flip bounce dynamics for one
coordinate with wall at `W`: the coordinate is in `[0, W]`, or it just
crossed a wall and the (already flipped) velocity brings it back inside on
the next move. -/
def coordOk (W x v : ℚ) : Prop :=
  -(1/4) ≤ v ∧ v ≤ 1/4 ∧
    (0 ≤ x ∧ x ≤ W ∨
      (W < x ∧ v ≤ 0 ∧ 0 ≤ x + v ∧ x + v ≤ W) ∨
      (x < 0 ∧ 0 ≤ v ∧ 0 ≤ x + v ∧ x + v ≤ W))

/-- The bounce invariant for both coordinates of a node. -/
def nodeOk (n : Node) : Prop :=
  coordOk WIDTH n.x n.vx ∧ coordOk HEIGHT n.y n.vy

/-! Concrete nodes, packets, environments and states used to instantiate
theorems and exhibit counterexamples. -/

/-- A stationary node at `(x, y)`. -/
def mkNode (i : ℕ) (x y : ℚ) (jam : Bool) : Node :=
  { id := i, x := x, y := y, vx := 0, vy := 0, isJammer := jam,
    isTarget := false, battery := 100, packetQueue := 0 }

/-- An environment at timestamp `t` whose random draws are read off `rs`
(99/100 past its end) and whose sine is identically 0. -/
def envOf (t : ℚ) (rs : List ℚ) : Env :=
  { now := t, rnd := fun n => rs.getD n (99/100), sinq := fun _ => 0 }

/-- A state carrying the given nodes, packets and attack kind, with the
counters, timers and random-attack state at their initial values
(App.tsx lines 39-49) and the frame at 1 (the first scheduled frame). -/
def baseState (ns : List Node) (ps : List Packet) (att : AttackType) :
    SimState :=
  { nodes := ns, links := [], packets := ps, packetsSent := 0,
    packetsDelivered := 0, packetsLost := 0, accumulatedEnergy := 0,
    latencyAcc := [], randomAttack := { isActive := false, nextSwitch := 0 },
    lastLogTime := 0, frame := 1, attackType := att, logs := [] }

/-- State for the energy analysis: only the jammer node, no traffic. -/
def stateC1 : SimState := baseState [mkNode 0 10 10 true] [] AttackType.none

/-- Three ticks spanning two log windows (emissions at 501 and 1102). -/
def ticksC1 : List Env := [envOf 501 [], envOf 600 [], envOf 1102 []]

/-- Nodes for the pdr analysis: a far-away jammer and two coincident
non-jammer nodes. -/
def nodesC2 : List Node :=
  [mkNode 0 700 10 true, mkNode 1 10 10 false, mkNode 2 10 10 false]

/-- An in-flight packet between nodes 1 and 2, created in an earlier log
window. -/
def pktC2 : Packet :=
  { id := 1/2, sourceId := 1, targetId := 2, x := 10, y := 10,
    progress := 9/10, delivered := false, lost := false, createdAt := 0 }

/-- State for the pdr analysis: the window counters are fresh (the previous
window just emitted) while `pktC2` is still in flight. -/
def stateC2 : SimState := baseState nodesC2 [pktC2] AttackType.none

/-- Draws for the pdr analysis: generate a packet from node 1 to node 2. -/
def envC2 : Env := envOf 501 [0, 1/3, 0, 1/2]

/-- State for the attack-switch analysis: a node still flagged as target and
a random-attack timer holding a pending switch time. -/
def stateC3 : SimState :=
  { baseState [{ mkNode 1 10 10 false with isTarget := true }] []
      AttackType.intelligent with
    randomAttack := { isActive := true, nextSwitch := 777 } }

/-- State for the arena-bounds analysis: one in-arena node close to the
right wall, moving right. -/
def stateC4 : SimState :=
  baseState [{ mkNode 1 (7999/10) 10 false with vx := 1/5 }] []
    AttackType.none

/-- Nodes for the zero-distance packet analysis: jammer and both packet
endpoints coincide. -/
def nodesC7 : List Node :=
  [mkNode 0 10 10 true, mkNode 1 10 10 false, mkNode 2 10 10 false]

/-- A non-terminal packet between the coincident nodes 1 and 2. -/
def pktC7 : Packet :=
  { id := 1/4, sourceId := 1, targetId := 2, x := 10, y := 10,
    progress := 1/2, delivered := false, lost := false, createdAt := 0 }

/-- The links of `nodesC7` under a Constant attack at full power. -/
def linksC7 : List Link :=
  computeLinks AttackType.constant true 1 (some (mkNode 0 10 10 true)) nodesC7

/-- Two coincident nodes away from any jammer. -/
def nodesW7 : List Node := [mkNode 1 20 20 false, mkNode 2 20 20 false]

/-- A non-terminal packet between the coincident nodes of `nodesW7`. -/
def pktW7 : Packet :=
  { id := 1/4, sourceId := 1, targetId := 2, x := 20, y := 20,
    progress := 1/3, delivered := false, lost := false, createdAt := 0 }

/-- A non-terminal packet whose node ids resolve to no node. -/
def pktW8 : Packet :=
  { id := 1/4, sourceId := 7, targetId := 8, x := 0, y := 0,
    progress := 1/3, delivered := false, lost := false, createdAt := 0 }

/-- Nodes for the destination-eligibility analysis: the jammer within range
of node 1. -/
def nodesC10 : List Node := [mkNode 0 0 0 true, mkNode 1 10 0 false]

/-- The links of `nodesC10` with no jamming. -/
def linksC10 : List Link :=
  computeLinks AttackType.none false 0 (some (mkNode 0 0 0 true)) nodesC10

/-- Draws for the destination-eligibility analysis: generate from node 1;
its only eligible neighbor is the jammer. -/
def envC10 : Env := envOf 0 [0, 1/2, 0, 1/2]

/-- Nodes for the intelligent-attack instantiation: distinct ids, one
jammer. -/
def nodesC6 : List Node :=
  [mkNode 0 0 0 true, mkNode 1 50 0 false, mkNode 2 50 40 false]

/-- The packet that `generate` creates from `nodesC10`, `linksC10` and
`envC10`: sourced at node 1, destined to the jammer (node 0). -/
def pktC10 : Packet :=
  { id := 1/2, sourceId := 1, targetId := 0, x := 10, y := 0,
    progress := 0, delivered := false, lost := false, createdAt := 0 }

/-- The single link of `nodesC2`: nodes 1 and 2 coincide, quality 1. -/
def lnkC2 : Link := { source := 1, target := 2, quality := 1 }

/-- The packet `generate` creates during the pdr-analysis tick. -/
def pktC2new : Packet :=
  { id := 1/2, sourceId := 1, targetId := 2, x := 10, y := 10,
    progress := 0, delivered := false, lost := false, createdAt := 501 }

/-- `pktC2` after its delivery tick. -/
def pktC2da : Packet :=
  { id := 1/2, sourceId := 1, targetId := 2, x := 10, y := 10,
    progress := 1, delivered := true, lost := false, createdAt := 0 }

/-- `pktC2new` after its (instant) delivery. -/
def pktC2db : Packet :=
  { id := 1/2, sourceId := 1, targetId := 2, x := 10, y := 10,
    progress := 1, delivered := true, lost := false, createdAt := 501 }

/-! Theorems. -/

/-- C1: the claim says the energy counter accrues 15 (jamming) or 2 (idle)
units on every tick as a cumulative running total carried into each emitted
record.  In the code `accumulatedEnergyRef` is never written, so each record's
energy field is just `0 + (jammingActive ? 15 : 2)`: over a three-tick run
with two emitted records (one tick in the first window, two in the second,
jamming never active) both records carry energy 2, instead of a growing
total. -/
theorem energy_constant_not_cumulative :
    ((run ticksC1 stateC1).logs.map SimulationLog.energy) = [2, 2] := by
  norm_num [run, tick, tickJammer, tickAttack, tickLinks, tickGen, tickAdv,
    stateC1, ticksC1, baseState, envOf, mkNode, List.getD, moveNodes,
    moveNode, evalAttack, computeLinks, pairs, generate, advancePackets,
    avgLinkQuality, emitRecord, round2, round3, WIDTH, HEIGHT, LOG_INTERVAL]

/-- C3 counterexample: switching the attack kind is `setAttackType`
(App.tsx line 445), which does not reset the Random controller's
`(isActive, nextSwitch)` pair and does not clear `isTarget` flags: from
`stateC3` (timer pair `(true, 777)`, node 1 flagged as target), switching to
Random leaves both in place, refuting the claim that switching resets
kind-specific controller state. -/
theorem switch_does_not_reset_state :
    ¬((setAttackType AttackType.random stateC3).randomAttack =
        { isActive := false, nextSwitch := 0 } ∧
      ∀ n ∈ (setAttackType AttackType.random stateC3).nodes,
        n.isTarget = false) := by
  intro h
  obtain ⟨h1, h2⟩ := h
  have h3 := h2 ({ mkNode 1 10 10 false with isTarget := true })
  simp [setAttackType, stateC3, baseState, mkNode] at h1 h3

/-- C3 amended: switching the active attack kind changes only the selected
kind; node positions, links, packets, the Random controller state and the
`isTarget` flags all persist unchanged (the flags are cleared only by later
ticks run with kind None or without a jammer). -/
theorem setAttackType_changes_only_kind (t : AttackType) (s : SimState) :
    (setAttackType t s).attackType = t ∧
    (setAttackType t s).nodes = s.nodes ∧
    (setAttackType t s).links = s.links ∧
    (setAttackType t s).packets = s.packets ∧
    (setAttackType t s).randomAttack = s.randomAttack ∧
    (setAttackType t s).logs = s.logs := by
  exact ⟨rfl, rfl, rfl, rfl, rfl, rfl⟩

/-- C4 counterexample: the claim says every node's coordinates remain within
`[0, 800] × [0, 500]` for every tick when all nodes start inside the arena.
All nodes of `stateC4` start inside (x = 799.9), yet after one tick node 1
sits at x = 800.1 > 800: the source moves first and only then flips the
velocity sign, without clamping. -/
theorem node_exits_arena_example :
    (∀ n ∈ stateC4.nodes, inArena n) ∧
    ∃ n ∈ (tick (envOf 1 []) stateC4).nodes, ¬(n.x ≤ WIDTH) := by
  constructor
  · intro n hn
    simp only [stateC4, baseState, mkNode, List.mem_singleton] at hn
    subst hn
    norm_num [inArena, WIDTH, HEIGHT]
  · have h : ((tick (envOf 1 []) stateC4).nodes.map Node.x) = [8001 / 10] := by
      norm_num [tick, tickJammer, tickAttack, tickLinks, tickGen, tickAdv,
        stateC4, baseState, envOf, mkNode, List.getD, moveNodes, moveNode,
        evalAttack, computeLinks, pairs, generate, advancePackets,
        avgLinkQuality, emitRecord, round2, round3, WIDTH, HEIGHT,
        LOG_INTERVAL]
    cases hN : (tick (envOf 1 []) stateC4).nodes with
    | nil => rw [hN] at h; simp at h
    | cons a l =>
      rw [hN, List.map_cons] at h
      injection h with h1 h2
      refine ⟨a, by simp [hN], ?_⟩
      rw [h1]
      norm_num [WIDTH]

/-- The bounce step preserves the single-coordinate invariant. -/
theorem coordOk_step (W x v : ℚ) (hW : 0 < W) (h : coordOk W x v) :
    coordOk W (x + v) (if x + v ≤ 0 ∨ W ≤ x + v then -v else v) := by
  obtain ⟨hv1, hv2, hcase⟩ := h
  split_ifs with hif
  · refine ⟨by linarith, by linarith, ?_⟩
    rcases hcase with ⟨hx0, hxW⟩ | ⟨h1, h2, h3, h4⟩ | ⟨h1, h2, h3, h4⟩
    · rcases hif with hif | hif
      · by_cases hlt : x + v < 0
        · exact Or.inr (Or.inr ⟨hlt, by linarith, by linarith, by linarith⟩)
        · exact Or.inl ⟨by linarith, by linarith⟩
      · by_cases hlt : W < x + v
        · exact Or.inr (Or.inl ⟨hlt, by linarith, by linarith, by linarith⟩)
        · exact Or.inl ⟨by linarith, by linarith⟩
    · exact Or.inl ⟨h3, h4⟩
    · exact Or.inl ⟨h3, h4⟩
  · push_neg at hif
    exact ⟨hv1, hv2, Or.inl ⟨by linarith [hif.1], by linarith [hif.2]⟩⟩

/-- The invariant yields the `[-1/4, W + 1/4]` bound on the coordinate. -/
theorem coordOk_bound (W x v : ℚ) (hW : 0 < W) (h : coordOk W x v) :
    -(1/4) ≤ x ∧ x ≤ W + 1/4 := by
  obtain ⟨hv1, hv2, hc⟩ := h
  rcases hc with ⟨h1, h2⟩ | ⟨h1, h2, h3, h4⟩ | ⟨h1, h2, h3, h4⟩ <;>
    exact ⟨by linarith, by linarith⟩

/-- `moveNode` preserves the bounce invariant of both coordinates. -/
theorem moveNode_ok (n : Node) (h : nodeOk n) : nodeOk (moveNode n) := by
  obtain ⟨hx, hy⟩ := h
  have hx2 := coordOk_step WIDTH n.x n.vx (by norm_num [WIDTH]) hx
  have hy2 := coordOk_step HEIGHT n.y n.vy (by norm_num [HEIGHT]) hy
  exact ⟨hx2, hy2⟩

/-- The attack-evaluation step never changes node positions or velocities,
so it preserves the bounce invariant. -/
theorem evalAttack_nodes_ok (att : AttackType) (j : Option Node)
    (ns : List Node) (ps : List Packet) (ra : RandomAttackState) (fr : ℕ)
    (e : Env) (k : ℕ) (h : ∀ n ∈ ns, nodeOk n) :
    ∀ n ∈ (evalAttack att j ns ps ra fr e k).nodes, nodeOk n := by
  intro n hn
  cases j with
  | none =>
    simp only [evalAttack, List.mem_map] at hn
    obtain ⟨m, hm, rfl⟩ := hn
    exact h m hm
  | some jn =>
    cases att with
    | none =>
      simp only [evalAttack, List.mem_map] at hn
      obtain ⟨m, hm, rfl⟩ := hn
      exact h m hm
    | constant => exact h n hn
    | reactive => exact h n hn
    | sweep => exact h n hn
    | random =>
      simp only [evalAttack] at hn
      split at hn
      · exact h n hn
      · exact h n hn
    | intelligent =>
      simp only [evalAttack] at hn
      split at hn
      · simp only [setTargets, List.mem_map] at hn
        obtain ⟨m, hm, rfl⟩ := hn
        exact h m hm
      · exact h n hn

/-- A tick preserves the bounce invariant of every node. -/
theorem tick_nodes_ok (e : Env) (s : SimState)
    (h : ∀ n ∈ s.nodes, nodeOk n) : ∀ n ∈ (tick e s).nodes, nodeOk n := by
  have h1 : ∀ n ∈ moveNodes s.nodes, nodeOk n := by
    intro n hn
    simp only [moveNodes, List.mem_map] at hn
    obtain ⟨m, hm, rfl⟩ := hn
    exact moveNode_ok m (h m hm)
  have h2 := evalAttack_nodes_ok s.attackType (tickJammer s)
    (moveNodes s.nodes) s.packets s.randomAttack s.frame e 0 h1
  intro n hn
  apply h2
  have hEq : (tick e s).nodes =
      (evalAttack s.attackType (tickJammer s) (moveNodes s.nodes) s.packets
        s.randomAttack s.frame e 0).nodes := by
    simp only [tick, tickAttack]
    split <;> rfl
  rwa [hEq] at hn

/-- A whole run preserves the bounce invariant of every node. -/
theorem run_nodes_ok (es : List Env) (s : SimState)
    (h : ∀ n ∈ s.nodes, nodeOk n) : ∀ n ∈ (run es s).nodes, nodeOk n := by
  induction es generalizing s with
  | nil => simpa [run] using h
  | cons e es ih =>
    intro n hn
    exact ih (tick e s) (tick_nodes_ok e s h) n (by simpa [run] using hn)

/-- C4 amended: with the move-then-flip bounce a coordinate can transiently
overshoot a wall by at most one velocity step, so given that all nodes start
inside the arena with both velocity components at most 1/4 in absolute value
(as `initializeNodes` guarantees), every node's coordinates remain within
`[-1/4, 800 + 1/4] × [-1/4, 500 + 1/4]` for every tick of any run. -/
theorem nodes_stay_near_arena (s : SimState) (es : List Env)
    (h : ∀ n ∈ s.nodes, inArena n ∧ speedBounded n) :
    ∀ n ∈ (run es s).nodes,
      -(1/4) ≤ n.x ∧ n.x ≤ WIDTH + 1/4 ∧
        -(1/4) ≤ n.y ∧ n.y ≤ HEIGHT + 1/4 := by
  have h0 : ∀ n ∈ s.nodes, nodeOk n := by
    intro n hn
    obtain ⟨⟨a1, a2, a3, a4⟩, b1, b2, b3, b4⟩ := h n hn
    exact ⟨⟨b1, b2, Or.inl ⟨a1, a2⟩⟩, b3, b4, Or.inl ⟨a3, a4⟩⟩
  intro n hn
  obtain ⟨hx, hy⟩ := run_nodes_ok es s h0 n hn
  obtain ⟨hx1, hx2⟩ := coordOk_bound WIDTH n.x n.vx (by norm_num [WIDTH]) hx
  obtain ⟨hy1, hy2⟩ := coordOk_bound HEIGHT n.y n.vy (by norm_num [HEIGHT]) hy
  exact ⟨hx1, hx2, hy1, hy2⟩

/-- Witness for `nodes_stay_near_arena` at the concrete state `stateC4`. -/
theorem nodes_stay_near_arena_witness :
    (∀ n ∈ stateC4.nodes, inArena n ∧ speedBounded n) ∧
    (∀ n ∈ (run [envOf 1 []] stateC4).nodes,
      -(1/4) ≤ n.x ∧ n.x ≤ WIDTH + 1/4 ∧
        -(1/4) ≤ n.y ∧ n.y ≤ HEIGHT + 1/4) := by
  have hh : ∀ n ∈ stateC4.nodes, inArena n ∧ speedBounded n := by
    intro n hn
    simp only [stateC4, baseState, mkNode, List.mem_singleton] at hn
    subst hn
    norm_num [inArena, speedBounded, WIDTH, HEIGHT]
  exact ⟨hh, nodes_stay_near_arena stateC4 [envOf 1 []] hh⟩

/-- Rounding to three decimals stays within `[0, 1]` on `[0, 1]`. -/
theorem round3_mem (q : ℚ) (h0 : 0 ≤ q) (h1 : q ≤ 1) :
    0 ≤ round3 q ∧ round3 q ≤ 1 := by
  unfold round3
  constructor
  · apply div_nonneg _ (by norm_num)
    have hz : (0 : ℤ) ≤ ⌊q * 1000 + 1 / 2⌋ := by
      apply Int.le_floor.mpr
      push_cast
      linarith
    exact_mod_cast hz
  · rw [div_le_one (by norm_num)]
    have hlt : ⌊q * 1000 + 1 / 2⌋ < 1001 := by
      apply Int.floor_lt.mpr
      push_cast
      linarith
    have hle : ⌊q * 1000 + 1 / 2⌋ ≤ 1000 := by omega
    exact_mod_cast hle

/-- C2 amended: in every emitted record, `pdr = round3 (delivered / (sent +
1/10000))` and `plr = round3 (lost / (sent + 1/10000))` (with `pdr = 1`,
`plr = 0` when `sent = 0`), and both lie in `[0, 1]` provided the window's
delivered and lost counts do not exceed its sent count; without that proviso
the ratios can exceed 1, because packets sent in an earlier window may be
delivered or lost in this one. -/
theorem emitted_ratios_bounded (now : ℚ) (att : AttackType)
    (sent delivered lost : ℕ) (latAcc : List ℚ) (accE : ℚ) (act : Bool)
    (avgQ power : ℚ) (hd : delivered ≤ sent) (hl : lost ≤ sent) :
    (0 ≤ (emitRecord now att sent delivered lost latAcc accE act avgQ
        power).pdr ∧
      (emitRecord now att sent delivered lost latAcc accE act avgQ
        power).pdr ≤ 1 ∧
      0 ≤ (emitRecord now att sent delivered lost latAcc accE act avgQ
        power).plr ∧
      (emitRecord now att sent delivered lost latAcc accE act avgQ
        power).plr ≤ 1) ∧
    (sent = 0 →
      (emitRecord now att sent delivered lost latAcc accE act avgQ
        power).pdr = 1 ∧
      (emitRecord now att sent delivered lost latAcc accE act avgQ
        power).plr = 0) := by
  by_cases hs : sent = 0
  · subst hs
    have hd0 : delivered = 0 := Nat.le_zero.mp hd
    have hl0 : lost = 0 := Nat.le_zero.mp hl
    subst hd0
    subst hl0
    refine ⟨?_, fun _ => ?_⟩ <;>
      norm_num [emitRecord, round3]
  · have hpos : (0 : ℚ) < (sent : ℚ) + 0.0001 := by
      have : (0 : ℚ) ≤ (sent : ℚ) := Nat.cast_nonneg sent
      linarith
    have hpdr0 : (0 : ℚ) ≤ (delivered : ℚ) / ((sent : ℚ) + 0.0001) :=
      div_nonneg (Nat.cast_nonneg _) (le_of_lt hpos)
    have hpdr1 : (delivered : ℚ) / ((sent : ℚ) + 0.0001) ≤ 1 := by
      rw [div_le_one hpos]
      have : (delivered : ℚ) ≤ (sent : ℚ) := by exact_mod_cast hd
      linarith
    have hplr0 : (0 : ℚ) ≤ (lost : ℚ) / ((sent : ℚ) + 0.0001) :=
      div_nonneg (Nat.cast_nonneg _) (le_of_lt hpos)
    have hplr1 : (lost : ℚ) / ((sent : ℚ) + 0.0001) ≤ 1 := by
      rw [div_le_one hpos]
      have : (lost : ℚ) ≤ (sent : ℚ) := by exact_mod_cast hl
      linarith
    have r1 := round3_mem _ hpdr0 hpdr1
    have r2 := round3_mem _ hplr0 hplr1
    refine ⟨?_, fun hs0 => absurd hs0 hs⟩
    simp only [emitRecord, hs, if_false]
    exact ⟨r1.1, r1.2, r2.1, r2.2⟩

/-- Witness for `emitted_ratios_bounded` at a concrete window. -/
theorem emitted_ratios_bounded_witness :
    (2 ≤ 3 ∧ 1 ≤ 3) ∧
    ((0 ≤ (emitRecord 501 AttackType.none 3 2 1 [] 0 false 0 0).pdr ∧
      (emitRecord 501 AttackType.none 3 2 1 [] 0 false 0 0).pdr ≤ 1 ∧
      0 ≤ (emitRecord 501 AttackType.none 3 2 1 [] 0 false 0 0).plr ∧
      (emitRecord 501 AttackType.none 3 2 1 [] 0 false 0 0).plr ≤ 1) ∧
    (3 = 0 →
      (emitRecord 501 AttackType.none 3 2 1 [] 0 false 0 0).pdr = 1 ∧
      (emitRecord 501 AttackType.none 3 2 1 [] 0 false 0 0).plr = 0)) :=
  ⟨⟨by norm_num, by norm_num⟩,
    emitted_ratios_bounded 501 AttackType.none 3 2 1 [] 0 false 0 0
      (by norm_num) (by norm_num)⟩

/-- The timestamp of the pdr-analysis environment. -/
theorem envC2_now : envC2.now = 501 := rfl

/-- The pdr-analysis nodes are stationary. -/
theorem movedC2 : moveNodes nodesC2 = nodesC2 := by
  norm_num [moveNodes, moveNode, nodesC2, mkNode, WIDTH, HEIGHT]

/-- The jammer of the pdr-analysis node list. -/
theorem jammerC2 :
    (nodesC2.find? fun n => n.isJammer) = some (mkNode 0 700 10 true) := rfl

/-- The attack evaluation of the pdr-analysis tick: kind None clears the
(already clear) target flags and reports no jamming. -/
theorem attC2 :
    evalAttack AttackType.none (some (mkNode 0 700 10 true)) nodesC2 [pktC2]
      { isActive := false, nextSwitch := 0 } 1 envC2 0 =
    { jammingActive := false, jammingPower := 0, nodes := nodesC2,
      randomAttack := { isActive := false, nextSwitch := 0 }, k := 0 } := by
  norm_num [evalAttack, nodesC2, mkNode]

/-- The links of the pdr-analysis tick: only the coincident pair 1-2. -/
theorem linksC2 :
    computeLinks AttackType.none false 0 (some (mkNode 0 700 10 true))
      nodesC2 = [lnkC2] := by
  norm_num [computeLinks, pairs, linkFor, dist, Node.pos, nodesC2, mkNode,
    lnkC2, MAX_RANGE, List.filterMap_cons, List.filterMap_nil]

/-- The traffic generation of the pdr-analysis tick creates `pktC2new` from
node 1 to node 2. -/
theorem genC2 :
    generate nodesC2 [lnkC2] 501 envC2 0 [pktC2] =
      { packets := [pktC2, pktC2new], sentInc := 1, k := 4 } := by
  norm_num [generate, nodesC2, mkNode, lnkC2, pktC2, pktC2new, envC2, envOf,
    List.getD]

/-- The packet advancement of the pdr-analysis tick delivers both packets
(their endpoints coincide). -/
theorem advC2 :
    advancePackets nodesC2 [lnkC2] 501 envC2 [pktC2, pktC2new] 4 =
      ([pktC2da, pktC2db], 2, 0, [501, 0], 4) := by
  norm_num [advancePackets, advancePacket, nodesC2, mkNode, lnkC2, pktC2,
    pktC2new, pktC2da, pktC2db, dist, Node.pos, PACKET_SPEED]

/-- Projections of `stateC2`. -/
theorem stateC2_nodes : stateC2.nodes = nodesC2 := rfl

theorem stateC2_packets : stateC2.packets = [pktC2] := rfl

theorem stateC2_att : stateC2.attackType = AttackType.none := rfl

theorem stateC2_ra :
    stateC2.randomAttack = { isActive := false, nextSwitch := 0 } := rfl

theorem stateC2_frame : stateC2.frame = 1 := rfl

/-- The attack evaluation of the pdr-analysis tick. -/
theorem tickAttackC2 :
    tickAttack envC2 stateC2 =
      { jammingActive := false, jammingPower := 0, nodes := nodesC2,
        randomAttack := { isActive := false, nextSwitch := 0 }, k := 0 } := by
  simp only [tickAttack, tickJammer, stateC2_nodes, stateC2_packets,
    stateC2_att, stateC2_ra, stateC2_frame, movedC2, jammerC2]
  exact attC2

/-- The link set of the pdr-analysis tick. -/
theorem tickLinksC2 : tickLinks envC2 stateC2 = [lnkC2] := by
  simp only [tickLinks, tickJammer, tickAttackC2, stateC2_nodes,
    stateC2_att, jammerC2]
  exact linksC2

/-- The traffic generation of the pdr-analysis tick. -/
theorem tickGenC2 :
    tickGen envC2 stateC2 =
      { packets := [pktC2, pktC2new], sentInc := 1, k := 4 } := by
  simp only [tickGen, tickAttackC2, tickLinksC2, stateC2_packets, envC2_now]
  exact genC2

/-- The packet advancement of the pdr-analysis tick. -/
theorem tickAdvC2 :
    tickAdv envC2 stateC2 = ([pktC2da, pktC2db], 2, 0, [501, 0], 4) := by
  simp only [tickAdv, tickAttackC2, tickLinksC2, tickGenC2, envC2_now]
  exact advC2

/-- C2 counterexample: the claim says pdr of every emitted record lies in
`[0, 1]`.  From `stateC2` — fresh window counters, the packet `pktC2` from an
earlier window still in flight — one tick delivers `pktC2` and also creates
and instantly delivers a new packet between the coincident nodes 1 and 2, so
the window ends with sent = 1, delivered = 2 and the emitted record has
pdr = round3 (2 / 1.0001) = 2 > 1. -/
theorem pdr_gt_one_example :
    ((tick envC2 stateC2).logs.map SimulationLog.pdr) = [2] ∧
    ∃ r ∈ (tick envC2 stateC2).logs, ¬(r.pdr ≤ 1) := by
  have h : ((tick envC2 stateC2).logs.map SimulationLog.pdr) = [2] := by
    simp only [tick, tickAttackC2, tickLinksC2, tickGenC2, tickAdvC2,
      envC2_now]
    rw [if_pos (show (501 : ℚ) - stateC2.lastLogTime > LOG_INTERVAL by
      norm_num [stateC2, baseState, LOG_INTERVAL])]
    norm_num [stateC2, baseState, emitRecord, round3, round2, avgLinkQuality,
      lnkC2, pktC2da, pktC2db, LOG_INTERVAL]
  refine ⟨h, ?_⟩
  cases hN : (tick envC2 stateC2).logs with
  | nil => rw [hN] at h; simp at h
  | cons a l =>
    rw [hN, List.map_cons] at h
    injection h with h1 h2
    refine ⟨a, by simp [hN], ?_⟩
    rw [h1]
    norm_num

/-- A `filterMap` whose function is an if-some-else-none equals a filter
followed by a map. -/
theorem filterMap_ite_eq (g : α → Option β) (p : α → Bool) (f : α → β)
    (hg : ∀ a, g a = if p a then some (f a) else none) (l : List α) :
    l.filterMap g = (l.filter p).map f := by
  induction l with
  | nil => rfl
  | cons a l ih =>
    by_cases hp : p a
    · simp [List.filterMap_cons, List.filter_cons, hg a, hp, ih]
    · simp [List.filterMap_cons, List.filter_cons, hg a, hp, ih]

/-- One loop iteration of the link computation produces exactly the claimed
link for an in-range pair and nothing otherwise. -/
theorem linkFor_eq_claim (att : AttackType) (act : Bool) (pw : ℚ)
    (j : Option Node) (pq : Node × Node) :
    linkFor att act pw j pq =
      if decide (dist pq.1.pos pq.2.pos < MAX_RANGE) then
        some { source := pq.1.id, target := pq.2.id,
               quality := linkQualityClaim att act pw j pq.1 pq.2 }
      else none := by
  unfold linkFor linkQualityClaim
  cases j with
  | none =>
    by_cases hR : dist pq.1.pos pq.2.pos < MAX_RANGE <;> simp [hR]
  | some jn =>
    cases act with
    | false =>
      by_cases hR : dist pq.1.pos pq.2.pos < MAX_RANGE <;> simp [hR]
    | true =>
      by_cases hR : dist pq.1.pos pq.2.pos < MAX_RANGE <;> simp [hR]

/-- C5: the per-tick link set contains a link for an unordered node pair
exactly when the pair's distance is below `MAX_RANGE = 120`, with quality
equal to the spec's formula (`linkQualityClaim`), and the tick's average
link quality is the arithmetic mean over all links, 0 when none exist. -/
theorem computeLinks_matches_claim :
    (∀ (att : AttackType) (act : Bool) (pw : ℚ) (j : Option Node)
      (ns : List Node),
      computeLinks att act pw j ns = linksClaim att act pw j ns) ∧
    (∀ ls : List Link, avgLinkQuality ls = avgLinkQualityClaim ls) := by
  constructor
  · intro att act pw j ns
    unfold computeLinks linksClaim
    exact filterMap_ite_eq _ _ _ (linkFor_eq_claim att act pw j) (pairs ns)
  · intro ls
    cases ls with
    | nil => rfl
    | cons a l =>
      simp [avgLinkQuality, avgLinkQualityClaim]

/-- C9: under the Reactive kind (with the jammer present) jamming is active
on a tick exactly when some in-flight, non-terminal packet lies within 100
distance units of the jammer; the power is 1 when active and 0 otherwise;
the node list and the random-attack state pass through unchanged (no state
is carried across ticks). -/
theorem reactive_iff_packet_nearby (j : Node) (ns : List Node)
    (ps : List Packet) (ra : RandomAttackState) (frame : ℕ) (e : Env)
    (k : ℕ) :
    ((evalAttack AttackType.reactive (some j) ns ps ra frame e
        k).jammingActive = true ↔
      ∃ p ∈ ps, p.delivered = false ∧ p.lost = false ∧
        dist p.pos j.pos < 100) ∧
    (evalAttack AttackType.reactive (some j) ns ps ra frame e
        k).jammingPower =
      (if (evalAttack AttackType.reactive (some j) ns ps ra frame e
          k).jammingActive then 1 else 0) ∧
    (evalAttack AttackType.reactive (some j) ns ps ra frame e k).nodes =
      ns ∧
    (evalAttack AttackType.reactive (some j) ns ps ra frame e
        k).randomAttack = ra := by
  have hA : (evalAttack AttackType.reactive (some j) ns ps ra frame e
      k).jammingActive =
      ps.any fun p =>
        !p.delivered && !p.lost && decide (dist p.pos j.pos < 100) := rfl
  refine ⟨?_, rfl, rfl, rfl⟩
  rw [hA, List.any_eq_true]
  constructor
  · rintro ⟨p, hp, hcond⟩
    simp only [Bool.and_eq_true, Bool.not_eq_true',
      decide_eq_true_eq] at hcond
    exact ⟨p, hp, hcond.1.1, hcond.1.2, hcond.2⟩
  · rintro ⟨p, hp, h1, h2, h3⟩
    exact ⟨p, hp, by simp [h1, h2, h3]⟩

/-- The links of `nodesC10`: one link between the jammer and node 1. -/
theorem linksC10_eval :
    linksC10 = [{ source := 0, target := 1, quality := 11/12 }] := by
  norm_num [linksC10, computeLinks, pairs, linkFor, dist, Node.pos,
    nodesC10, mkNode, MAX_RANGE, List.filterMap_cons, List.filterMap_nil]

/-- The generation step from `nodesC10` creates `pktC10`, whose destination
is the jammer. -/
theorem genC10_eval :
    (generate nodesC10 linksC10 0 envC10 0 []).packets = [pktC10] := by
  rw [linksC10_eval]
  norm_num [generate, nodesC10, mkNode, envC10, envOf, List.getD, pktC10]

/-- C10: a packet created by the traffic-generation step always has a
non-jammer source node (the jammer is skipped as a candidate source), while
the jammer is an eligible destination: from `nodesC10` the generation step
creates `pktC10`, whose `targetId` is the jammer's id 0. -/
theorem generate_source_not_jammer :
    (∀ (ns : List Node) (links : List Link) (now : ℚ) (e : Env) (k : ℕ)
      (ps : List Packet) (p : Packet),
      p ∈ (generate ns links now e k ps).packets → p ∉ ps →
      ∃ src ∈ ns, src.isJammer = false ∧ p.sourceId = src.id) ∧
    (∃ p ∈ (generate nodesC10 linksC10 0 envC10 0 []).packets,
      p.targetId = 0 ∧ (mkNode 0 0 0 true) ∈ nodesC10 ∧
      (mkNode 0 0 0 true).isJammer = true ∧ (mkNode 0 0 0 true).id = 0) := by
  constructor
  · intro ns links now e k ps p hmem hnot
    unfold generate at hmem
    split at hmem
    · dsimp only at hmem
      split at hmem
      · exact absurd hmem hnot
      · rename_i source hsrc
        split at hmem
        · exact absurd hmem hnot
        · rename_i hjam
          split at hmem
          · split at hmem
            · exact absurd hmem hnot
            · rename_i targetId htid
              split at hmem
              · exact absurd hmem hnot
              · try dsimp only at hmem
                rcases List.mem_append.mp hmem with hin | hone
                · exact absurd hin hnot
                · have hps : p.sourceId = source.id := by
                    rw [List.mem_singleton.mp hone]
                  refine ⟨source, List.getElem?_mem hsrc, ?_, hps⟩
                  simpa using hjam
          · exact absurd hmem hnot
    · exact absurd hmem hnot
  · refine ⟨pktC10, ?_, rfl, by simp [nodesC10], rfl, rfl⟩
    rw [genC10_eval]
    exact List.mem_singleton_self _

/-- Witness for the universal half of `generate_source_not_jammer` at the
concrete generation instance. -/
theorem generate_source_not_jammer_witness :
    pktC10 ∈ (generate nodesC10 linksC10 0 envC10 0 []).packets ∧
    pktC10 ∉ ([] : List Packet) ∧
    ∃ src ∈ nodesC10, src.isJammer = false ∧ pktC10.sourceId = src.id := by
  have hmem : pktC10 ∈ (generate nodesC10 linksC10 0 envC10 0 []).packets := by
    rw [genC10_eval]
    exact List.mem_singleton_self _
  exact ⟨hmem, by simp,
    generate_source_not_jammer.1 nodesC10 linksC10 0 envC10 0 [] pktC10 hmem
      (by simp)⟩

/-- Distances are never negative. -/
theorem dist_nonneg (a b : ℚ × ℚ) : 0 ≤ dist a b := Rat.sqrt_nonneg _

/-- C8: advancing a non-terminal packet never decreases its progress, and
the resulting packet is never both delivered and lost. -/
theorem progress_monotone_not_both (ns : List Node) (links : List Link)
    (now : ℚ) (e : Env) (p : Packet) (k : ℕ)
    (h1 : p.delivered = false) (h2 : p.lost = false) (h3 : p.progress ≤ 1) :
    p.progress ≤ (advancePacket ns links now e p k).packet.progress ∧
    ((advancePacket ns links now e p k).packet.delivered = true →
      (advancePacket ns links now e p k).packet.lost = false) := by
  have hstep : ∀ q : ℚ, 0 ≤ q →
      p.progress ≤ p.progress + PACKET_SPEED / q := by
    intro q hq
    have : (0 : ℚ) ≤ PACKET_SPEED / q :=
      div_nonneg (by norm_num [PACKET_SPEED]) hq
    linarith
  unfold advancePacket
  simp only [h1, h2, Bool.or_self, Bool.false_eq_true, if_false]
  split
  · exact ⟨le_refl _, by simp [h1]⟩
  · exact ⟨le_refl _, by simp [h1]⟩
  · rename_i source target hfs hft
    split
    · split
      · exact ⟨le_refl _, by simp [h1]⟩
      · split
        · exact ⟨h3, by simp [h2]⟩
        · exact ⟨hstep _ (dist_nonneg _ _), by simp [h1]⟩
    · split
      · exact ⟨h3, by simp [h2]⟩
      · exact ⟨hstep _ (dist_nonneg _ _), by simp [h1]⟩

/-- Witness for `progress_monotone_not_both`: a packet whose endpoint ids
resolve to no node is marked lost with progress unchanged. -/
theorem progress_monotone_not_both_witness :
    pktW8.delivered = false ∧ pktW8.lost = false ∧ pktW8.progress ≤ 1 ∧
    (pktW8.progress ≤
      (advancePacket [] [] 0 (envOf 0 []) pktW8 0).packet.progress ∧
    ((advancePacket [] [] 0 (envOf 0 []) pktW8 0).packet.delivered = true →
      (advancePacket [] [] 0 (envOf 0 []) pktW8 0).packet.lost = false)) :=
  ⟨rfl, rfl, by norm_num [pktW8],
    progress_monotone_not_both [] [] 0 (envOf 0 []) pktW8 0 rfl rfl
      (by norm_num [pktW8])⟩

/-- C7 amended: a non-terminal packet whose resolved source and target
coincide (distance 0) is either first marked lost by the link-quality loss
check — position and progress unchanged — or delivered that tick with its
position set to the target's coordinates and progress set to 1; when the
pair's link has quality above 0.2 it is always delivered.  (In JavaScript
the zero denominator yields `Infinity`, which satisfies `newProgress >= 1`,
so the delivered branch discards it and only the finite values shown here
are retained.) -/
theorem coincident_packet_advance (ns : List Node) (links : List Link)
    (now : ℚ) (e : Env) (p : Packet) (k : ℕ) (src tgt : Node)
    (h1 : p.delivered = false) (h2 : p.lost = false)
    (hs : (ns.find? fun n => n.id == p.sourceId) = some src)
    (ht : (ns.find? fun n => n.id == p.targetId) = some tgt)
    (hd : dist src.pos tgt.pos = 0) :
    (((advancePacket ns links now e p k).packet.delivered = true ∧
      (advancePacket ns links now e p k).packet.x = tgt.x ∧
      (advancePacket ns links now e p k).packet.y = tgt.y ∧
      (advancePacket ns links now e p k).packet.progress = 1) ∨
     ((advancePacket ns links now e p k).packet.lost = true ∧
      (advancePacket ns links now e p k).packet.x = p.x ∧
      (advancePacket ns links now e p k).packet.y = p.y ∧
      (advancePacket ns links now e p k).packet.progress = p.progress)) ∧
    (∀ l, (links.find? fun l2 =>
        (l2.source == p.sourceId && l2.target == p.targetId) ||
          (l2.target == p.sourceId && l2.source == p.targetId)) = some l →
      ¬(l.quality ≤ 0.2) →
      (advancePacket ns links now e p k).packet.delivered = true ∧
      (advancePacket ns links now e p k).packet.x = tgt.x ∧
      (advancePacket ns links now e p k).packet.y = tgt.y ∧
      (advancePacket ns links now e p k).packet.progress = 1) := by
  unfold advancePacket
  simp only [h1, h2, Bool.or_self, Bool.false_eq_true, if_false, hs, ht, hd]
  constructor
  · split
    · split
      · exact Or.inr ⟨rfl, rfl, rfl, rfl⟩
      · exact Or.inl ⟨rfl, rfl, rfl, by simp⟩
    · exact Or.inl ⟨rfl, rfl, rfl, by simp⟩
  · intro l hl hq
    rw [hl]
    simp only [hq, decide_eq_true_eq, if_false]
    exact ⟨rfl, rfl, rfl, by simp⟩

/-- The three coincident nodes of `nodesC7` yield three fully jammed links
of quality 0 under a Constant attack at power 1. -/
theorem linksC7_eval :
    linksC7 = [{ source := 0, target := 1, quality := 0 },
      { source := 0, target := 2, quality := 0 },
      { source := 1, target := 2, quality := 0 }] := by
  norm_num [linksC7, computeLinks, pairs, linkFor, dist, Node.pos, nodesC7,
    mkNode, MAX_RANGE, List.filterMap_cons, List.filterMap_nil]

/-- C7 counterexample: the claim says a packet between coincident nodes is
delivered on that tick.  Under a Constant attack the coincident pair's link
quality is 0 ≤ 0.2, so the loss coin runs first; with a draw of 0 < 0.15 the
packet `pktC7` is marked lost, not delivered, even though its endpoints
coincide. -/
theorem coincident_packet_lost_example :
    dist (mkNode 1 10 10 false).pos (mkNode 2 10 10 false).pos = 0 ∧
    (advancePacket nodesC7 linksC7 5 (envOf 5 [0]) pktC7 0).packet.lost =
      true ∧
    (advancePacket nodesC7 linksC7 5 (envOf 5 [0])
      pktC7 0).packet.delivered = false := by
  rw [linksC7_eval]
  refine ⟨by norm_num [dist, Node.pos, mkNode], ?_, ?_⟩ <;>
    norm_num [advancePacket, nodesC7, mkNode, pktC7, envOf, List.getD,
      dist, Node.pos, PACKET_SPEED]

/-- Witness for `coincident_packet_advance` at a concrete coincident pair
with no link (the loss coin draw misses, so the packet is delivered). -/
theorem coincident_packet_advance_witness :
    pktW7.delivered = false ∧ pktW7.lost = false ∧
    ((nodesW7.find? fun n => n.id == pktW7.sourceId) =
      some (mkNode 1 20 20 false)) ∧
    ((nodesW7.find? fun n => n.id == pktW7.targetId) =
      some (mkNode 2 20 20 false)) ∧
    dist (mkNode 1 20 20 false).pos (mkNode 2 20 20 false).pos = 0 ∧
    ((((advancePacket nodesW7 [] 0 (envOf 0 []) pktW7 0).packet.delivered =
        true ∧
      (advancePacket nodesW7 [] 0 (envOf 0 []) pktW7 0).packet.x =
        (mkNode 2 20 20 false).x ∧
      (advancePacket nodesW7 [] 0 (envOf 0 []) pktW7 0).packet.y =
        (mkNode 2 20 20 false).y ∧
      (advancePacket nodesW7 [] 0 (envOf 0 []) pktW7 0).packet.progress =
        1) ∨
     ((advancePacket nodesW7 [] 0 (envOf 0 []) pktW7 0).packet.lost = true ∧
      (advancePacket nodesW7 [] 0 (envOf 0 []) pktW7 0).packet.x =
        pktW7.x ∧
      (advancePacket nodesW7 [] 0 (envOf 0 []) pktW7 0).packet.y =
        pktW7.y ∧
      (advancePacket nodesW7 [] 0 (envOf 0 []) pktW7 0).packet.progress =
        pktW7.progress)) ∧
    (∀ l, (([] : List Link).find? fun l2 =>
        (l2.source == pktW7.sourceId && l2.target == pktW7.targetId) ||
          (l2.target == pktW7.sourceId && l2.source == pktW7.targetId)) =
          some l →
      ¬(l.quality ≤ 0.2) →
      (advancePacket nodesW7 [] 0 (envOf 0 []) pktW7 0).packet.delivered =
        true ∧
      (advancePacket nodesW7 [] 0 (envOf 0 []) pktW7 0).packet.x =
        (mkNode 2 20 20 false).x ∧
      (advancePacket nodesW7 [] 0 (envOf 0 []) pktW7 0).packet.y =
        (mkNode 2 20 20 false).y ∧
      (advancePacket nodesW7 [] 0 (envOf 0 []) pktW7 0).packet.progress =
        1)) :=
  ⟨rfl, rfl, rfl, rfl, by norm_num [dist, Node.pos, mkNode],
    coincident_packet_advance nodesW7 [] 0 (envOf 0 []) pktW7 0
      (mkNode 1 20 20 false) (mkNode 2 20 20 false) rfl rfl rfl rfl
      (by norm_num [dist, Node.pos, mkNode])⟩

/-- The target-selection scan returns either the starting accumulator (and
then no non-jammer beats the starting bound) or the first non-jammer node
attaining the maximum score: every non-jammer scores at most its score, and
every earlier non-jammer scores strictly less. -/
theorem selTarget_spec (f : Node → ℤ) (l : List Node) :
    ∀ (b : ℤ) (cur : Option Node),
    (selTarget f l b cur = cur ∧ ∀ m ∈ l, m.isJammer = false → f m ≤ b) ∨
    (∃ l1 t l2, l = l1 ++ t :: l2 ∧ selTarget f l b cur = some t ∧
      t.isJammer = false ∧ b < f t ∧
      (∀ m ∈ l, m.isJammer = false → f m ≤ f t) ∧
      (∀ m ∈ l1, m.isJammer = false → f m < f t)) := by
  induction l with
  | nil => exact fun b cur => Or.inl ⟨rfl, by simp⟩
  | cons n rest ih =>
    intro b cur
    by_cases hj : n.isJammer = true
    · have hs : selTarget f (n :: rest) b cur = selTarget f rest b cur := by
        simp [selTarget, hj]
      rcases ih b cur with ⟨h1, h2⟩ | ⟨l1, t, l2, he, h1, h2, h3, h4, h5⟩
      · refine Or.inl ⟨hs.trans h1, ?_⟩
        intro m hm hmj
        rcases List.mem_cons.mp hm with rfl | hm2
        · rw [hj] at hmj; cases hmj
        · exact h2 m hm2 hmj
      · refine Or.inr ⟨n :: l1, t, l2, by rw [he, List.cons_append],
          hs.trans h1, h2, h3, ?_, ?_⟩
        · intro m hm hmj
          rcases List.mem_cons.mp hm with rfl | hm2
          · rw [hj] at hmj; cases hmj
          · exact h4 m hm2 hmj
        · intro m hm hmj
          rcases List.mem_cons.mp hm with rfl | hm2
          · rw [hj] at hmj; cases hmj
          · exact h5 m hm2 hmj
    · have hjf : n.isJammer = false := by simpa using hj
      by_cases hlt : b < f n
      · have hs : selTarget f (n :: rest) b cur =
            selTarget f rest (f n) (some n) := by
          simp [selTarget, hjf, hlt]
        rcases ih (f n) (some n) with ⟨h1, h2⟩ |
          ⟨l1, t, l2, he, h1, h2, h3, h4, h5⟩
        · refine Or.inr ⟨[], n, rest, rfl, hs.trans h1, hjf, hlt, ?_,
            by simp⟩
          intro m hm hmj
          rcases List.mem_cons.mp hm with rfl | hm2
          · exact le_refl _
          · exact h2 m hm2 hmj
        · refine Or.inr ⟨n :: l1, t, l2, by rw [he, List.cons_append],
            hs.trans h1, h2, lt_trans hlt h3, ?_, ?_⟩
          · intro m hm hmj
            rcases List.mem_cons.mp hm with rfl | hm2
            · exact le_of_lt h3
            · exact h4 m hm2 hmj
          · intro m hm hmj
            rcases List.mem_cons.mp hm with rfl | hm2
            · exact h3
            · exact h5 m hm2 hmj
      · have hs : selTarget f (n :: rest) b cur = selTarget f rest b cur := by
          simp [selTarget, hjf, hlt]
        rcases ih b cur with ⟨h1, h2⟩ | ⟨l1, t, l2, he, h1, h2, h3, h4, h5⟩
        · refine Or.inl ⟨hs.trans h1, ?_⟩
          intro m hm hmj
          rcases List.mem_cons.mp hm with rfl | hm2
          · exact le_of_not_lt hlt
          · exact h2 m hm2 hmj
        · refine Or.inr ⟨n :: l1, t, l2, by rw [he, List.cons_append],
            hs.trans h1, h2, h3, ?_, ?_⟩
          · intro m hm hmj
            rcases List.mem_cons.mp hm with rfl | hm2
            · exact le_trans (le_of_not_lt hlt) (le_of_lt h3)
            · exact h4 m hm2 hmj
          · intro m hm hmj
            rcases List.mem_cons.mp hm with rfl | hm2
            · exact lt_of_le_of_lt (le_of_not_lt hlt) h3
            · exact h5 m hm2 hmj

/-- When a non-jammer exists, `selectTarget` picks the first non-jammer node
with the maximum neighbor count. -/
theorem selectTarget_exists (ns : List Node)
    (hex : ∃ n ∈ ns, n.isJammer = false) :
    ∃ l1 t l2, ns = l1 ++ t :: l2 ∧ selectTarget ns = some t ∧
      t.isJammer = false ∧
      (∀ m ∈ ns, m.isJammer = false →
        neighborCount ns m ≤ neighborCount ns t) ∧
      (∀ m ∈ l1, m.isJammer = false →
        neighborCount ns m < neighborCount ns t) := by
  rcases selTarget_spec (fun n => (neighborCount ns n : ℤ)) ns (-1) none with
    ⟨h1, h2⟩ | ⟨l1, t, l2, he, h1, h2, h3, h4, h5⟩
  · obtain ⟨n, hn, hnj⟩ := hex
    have hle := h2 n hn hnj
    have hge : (0 : ℤ) ≤ (neighborCount ns n : ℤ) := Int.natCast_nonneg _
    omega
  · refine ⟨l1, t, l2, he, h1, h2, ?_, ?_⟩
    · intro m hm hmj
      exact_mod_cast h4 m hm hmj
    · intro m hm hmj
      exact_mod_cast h5 m hm hmj

/-- In a list whose ids are distinct, exactly one node carries the id of a
member. -/
theorem countP_id_one (ns : List Node) (t : Node) (ht : t ∈ ns)
    (hnd : (ns.map Node.id).Nodup) :
    (ns.countP fun n => n.id == t.id) = 1 := by
  induction ns with
  | nil => cases ht
  | cons a l ih =>
    rw [List.map_cons, List.nodup_cons] at hnd
    obtain ⟨hna, hnl⟩ := hnd
    rcases List.mem_cons.mp ht with rfl | htl
    · rw [List.countP_cons_of_pos (fun (n : Node) => n.id == t.id) _ (by simp)]
      have hz : (l.countP fun n => n.id == t.id) = 0 := by
        rw [List.countP_eq_zero]
        intro n hn
        simp only [beq_iff_eq]
        intro hEq
        exact hna (List.mem_map.mpr ⟨n, hn, hEq⟩)
      rw [hz]
    · have hne : ¬(a.id == t.id) = true := by
        simp only [beq_iff_eq]
        intro hEq
        apply hna
        rw [hEq]
        exact List.mem_map.mpr ⟨t, htl, rfl⟩
      rw [List.countP_cons_of_neg (fun (n : Node) => n.id == t.id) _ hne]
      exact ih htl hnl

/-- C6: under the Intelligent kind (jammer present) jamming is always active
at power 0.9; on a tick whose frame counter is divisible by 60 — and only
then — the controller recomputes the target: it flags exactly the first
non-jammer node with the most in-range neighbors (earlier non-jammers have
strictly fewer, so ties break to the first-encountered id), so that, with
distinct node ids, exactly one node is flagged, it is not the jammer, and
every flagged node carries the selected node's id; on every other tick the
node list (hence every `isTarget` flag) passes through unchanged. -/
theorem intelligent_attack_spec (j : Node) (ns : List Node)
    (ps : List Packet) (ra : RandomAttackState) (frame : ℕ) (e : Env)
    (k : ℕ) (hnd : (ns.map Node.id).Nodup)
    (hex : ∃ n ∈ ns, n.isJammer = false) :
    (evalAttack AttackType.intelligent (some j) ns ps ra frame e
      k).jammingActive = true ∧
    (evalAttack AttackType.intelligent (some j) ns ps ra frame e
      k).jammingPower = 0.9 ∧
    (frame % 60 ≠ 0 →
      (evalAttack AttackType.intelligent (some j) ns ps ra frame e
        k).nodes = ns) ∧
    (frame % 60 = 0 → ∃ t l1 l2,
      selectTarget ns = some t ∧ t.isJammer = false ∧
      ns = l1 ++ t :: l2 ∧
      (∀ m ∈ ns, m.isJammer = false →
        neighborCount ns m ≤ neighborCount ns t) ∧
      (∀ m ∈ l1, m.isJammer = false →
        neighborCount ns m < neighborCount ns t) ∧
      (evalAttack AttackType.intelligent (some j) ns ps ra frame e
        k).nodes = setTargets ns (some t) ∧
      ((evalAttack AttackType.intelligent (some j) ns ps ra frame e
        k).nodes.countP fun n => n.isTarget) = 1 ∧
      (∀ n ∈ (evalAttack AttackType.intelligent (some j) ns ps ra frame e
        k).nodes, n.isTarget = true → n.isJammer = false ∧ n.id = t.id)) := by
  refine ⟨rfl, rfl, ?_, ?_⟩
  · intro hfr
    simp [evalAttack, hfr]
  · intro hfr
    obtain ⟨l1, t, l2, he, hsel, htj, hmax, hfirst⟩ := selectTarget_exists ns hex
    have htm : t ∈ ns := by
      rw [he]
      exact List.mem_append_right l1 (List.mem_cons_self t l2)
    have hnodes : (evalAttack AttackType.intelligent (some j) ns ps ra frame
        e k).nodes = setTargets ns (some t) := by
      simp [evalAttack, hfr, hsel]
    refine ⟨t, l1, l2, hsel, htj, he, hmax, hfirst, hnodes, ?_, ?_⟩
    · rw [hnodes]
      unfold setTargets
      rw [List.countP_map]
      exact countP_id_one ns t htm hnd
    · intro n hn htar
      rw [hnodes] at hn
      simp only [setTargets, List.mem_map] at hn
      obtain ⟨m, hm, rfl⟩ := hn
      have hid : m.id = t.id := by
        have : (m.id == t.id) = true := htar
        exact beq_iff_eq.mp this
      have hmt : m = t :=
        List.inj_on_of_nodup_map hnd hm htm hid
      subst hmt
      exact ⟨htj, hid⟩

/-- Witness for `intelligent_attack_spec` at the three-node list `nodesC6`
on a recompute frame. -/
theorem intelligent_attack_spec_witness :
    (nodesC6.map Node.id).Nodup ∧ (∃ n ∈ nodesC6, n.isJammer = false) ∧
    ((evalAttack AttackType.intelligent (some (mkNode 0 0 0 true)) nodesC6 []
        { isActive := false, nextSwitch := 0 } 60 (envOf 0 []) 0
      ).jammingActive = true ∧
    (evalAttack AttackType.intelligent (some (mkNode 0 0 0 true)) nodesC6 []
        { isActive := false, nextSwitch := 0 } 60 (envOf 0 []) 0
      ).jammingPower = 0.9 ∧
    ((60 : ℕ) % 60 ≠ 0 →
      (evalAttack AttackType.intelligent (some (mkNode 0 0 0 true)) nodesC6
          [] { isActive := false, nextSwitch := 0 } 60 (envOf 0 []) 0
        ).nodes = nodesC6) ∧
    ((60 : ℕ) % 60 = 0 → ∃ t l1 l2,
      selectTarget nodesC6 = some t ∧ t.isJammer = false ∧
      nodesC6 = l1 ++ t :: l2 ∧
      (∀ m ∈ nodesC6, m.isJammer = false →
        neighborCount nodesC6 m ≤ neighborCount nodesC6 t) ∧
      (∀ m ∈ l1, m.isJammer = false →
        neighborCount nodesC6 m < neighborCount nodesC6 t) ∧
      (evalAttack AttackType.intelligent (some (mkNode 0 0 0 true)) nodesC6
          [] { isActive := false, nextSwitch := 0 } 60 (envOf 0 []) 0
        ).nodes = setTargets nodesC6 (some t) ∧
      ((evalAttack AttackType.intelligent (some (mkNode 0 0 0 true)) nodesC6
          [] { isActive := false, nextSwitch := 0 } 60 (envOf 0 []) 0
        ).nodes.countP fun n => n.isTarget) = 1 ∧
      (∀ n ∈ (evalAttack AttackType.intelligent (some (mkNode 0 0 0 true))
          nodesC6 [] { isActive := false, nextSwitch := 0 } 60 (envOf 0 [])
          0).nodes,
        n.isTarget = true → n.isJammer = false ∧ n.id = t.id))) :=
  ⟨by simp [nodesC6, mkNode], ⟨mkNode 1 50 0 false, by simp [nodesC6], rfl⟩,
    intelligent_attack_spec (mkNode 0 0 0 true) nodesC6 []
      { isActive := false, nextSwitch := 0 } 60 (envOf 0 []) 0
      (by simp [nodesC6, mkNode])
      ⟨mkNode 1 50 0 false, by simp [nodesC6], rfl⟩⟩

end NetJam
